import Mathlib

/-!
Shallow embedding of `src/modules/dpc-rankings.ts` (class `DPCRankings`).

The HTML-query capability (cheerio) is modelled structurally: an HTML
fragment is presented as the list of its `.wikitable`-classed tables in
document order; each table carries the list of `tr` rows that the
`find` selection returns; each row carries its class list, its `style`
attribute (absent = `none`), and its `td` cells; each cell carries the
texts of its bold (`b`) descendants and of its `.team-template-text a`
descendants, in document order.  `.eq(i)` on a selection is positional
indexing (out of range = empty selection) and `.text()` of an empty
selection is the empty string, exactly as in cheerio.

The JS `Map` built by `_parseRanks` uses freshly allocated objects
`{rank, team}` as keys; JS compares object keys by reference identity,
so every `set` inserts a new entry and no insertion ever overwrites a
previous one.  Reference identity is modelled by tagging each key with
its insertion index (`tagFrom`).

Promises: an executor may call `resolve`/`reject` several times; only
the first settlement counts.  Each lookup is therefore modelled as the
list of settlement attempts its loop makes, in order, and the observed
outcome is the head of that list.
-/

/-- One `td` cell: texts of its `b` descendants and of its
`.team-template-text a` descendants, in document order. -/
structure Cell where
  bolds : List String
  teamLinks : List String
deriving DecidableEq

/-- One `tr` row: its classes, its `style` attribute, its `td` cells. -/
structure Row where
  classes : List String
  style : Option String
  cells : List Cell
deriving DecidableEq

/-- cheerio `hasClass`. -/
def Row.hasClass (r : Row) (c : String) : Bool := r.classes.contains c

/-- One table: the rows returned by selecting `tr` inside it. -/
structure Table where
  rows : List Row
deriving DecidableEq

/-- An HTML fragment, presented as the `.wikitable`-classed tables it
contains, in document order. -/
structure Html where
  wikitables : List Table
deriving DecidableEq

/-- `$('.wikitable').eq(0).find('tr')`: the rows of the first matching
table, or the empty selection when no table matches. -/
def rankTableRows (h : Html) : List Row :=
  match h.wikitables.head? with
  | some t => t.rows
  | none => []

def RANK_TABLE_OFFSET : Nat := 2

def CLINCHED_COLOR_INDICATOR : String := "background-color:rgb(204,255,204)"

def INELIGIBLE_COLOR_INDICATOR : String := "background-color:rgb(255,204,204)"

/-- The `IRankKey` interface: the composite key object `{rank, team}`. -/
structure IRankKey where
  rank : String
  team : String
deriving DecidableEq

/-- The `IRank` interface (success shape). -/
structure IRank where
  rank : String
  team : String
  score : String
  isClinched : Bool
  isIneligible : Bool
deriving DecidableEq

/-- `row.find('td').eq(i).find('b')`: the bold descendants of cell `i`
(empty selection when the cell is out of range). -/
def tdBolds (r : Row) (i : Nat) : List String :=
  match r.cells.get? i with
  | some c => c.bolds
  | none => []

/-- `row.find('td').eq(i).find('.team-template-text a')`. -/
def tdTeamLinks (r : Row) (i : Nat) : List String :=
  match r.cells.get? i with
  | some c => c.teamLinks
  | none => []

/-- `row.find('td').eq(i).find('b').eq(0).text()`: text of the first
bold descendant, empty string when there is none. -/
def tdBoldText (r : Row) (i : Nat) : String := (tdBolds r i).headD ("")

/-- `row.find('td').eq(i).find('.team-template-text a').eq(0).text()`. -/
def tdTeamLinkText (r : Row) (i : Nat) : String := (tdTeamLinks r i).headD ("")

/-- The key object `{ rank, team }` built for one row. -/
def rowKey (r : Row) : IRankKey :=
  ⟨tdBoldText r 0, tdTeamLinkText r 1⟩

/-- The record `{ rank, team, score, isClinched, isIneligible }` built
for one row: flags by exact string equality of the `style` attribute
against the two color signatures. -/
def rowRank (r : Row) : IRank :=
  ⟨tdBoldText r 0, tdTeamLinkText r 1, tdBoldText r 2,
    decide (r.style = some CLINCHED_COLOR_INDICATOR),
    decide (r.style = some INELIGIBLE_COLOR_INDICATOR)⟩

/-- A JS `Map` key under reference identity: the key object tagged with
its insertion index (two `set` calls never share a key). -/
abbrev MapKey := Nat × IRankKey

/-- The `Map<IRankKey, IRank>`: entries in insertion order. -/
structure RankMap where
  entries : List (MapKey × IRank)
deriving DecidableEq

/-- `map.keys()`, in insertion order. -/
def RankMap.keys (m : RankMap) : List MapKey := m.entries.map Prod.fst

/-- `map.get(k)`: the value stored under key `k`, `undefined` (= `none`)
when the key is absent. -/
def RankMap.get (m : RankMap) (k : MapKey) : Option IRank :=
  (m.entries.find? (fun e => decide (e.1 = k))).map Prod.snd

/-- Tag a list of (key-object, value) pairs with insertion indices
starting at `n`, modelling the fresh identity of each key object. -/
def tagFrom : Nat → List (IRankKey × IRank) → List (MapKey × IRank)
  | _, [] => []
  | n, e :: es => ((n, e.1), e.2) :: tagFrom (n + 1) es

/-- The map built by consecutive `set` calls with fresh key objects. -/
def mapOfEntries (l : List (IRankKey × IRank)) : RankMap :=
  ⟨tagFrom 0 l⟩

/-- The body of the `for` loop of `_parseRanks`, over the rows from
index `RANK_TABLE_OFFSET` on: skip rows with the `expand-child` class,
otherwise build and append one entry. -/
def parseLoop : List Row → List (IRankKey × IRank)
  | [] => []
  | r :: rs =>
    if !(r.hasClass ("expand-child")) then (rowKey r, rowRank r) :: parseLoop rs
    else parseLoop rs

/-- `_parseRanks(tableHtml)`: rows of the first `.wikitable`, first two
rows skipped unconditionally, the loop above, results in a `Map`. -/
def _parseRanks (h : Html) : RankMap :=
  mapOfEntries (parseLoop ((rankTableRows h).drop RANK_TABLE_OFFSET))

/-- The records of a map, in insertion order (the collection the spec
calls a RankCollection). -/
def rankValues (m : RankMap) : List IRank := m.entries.map Prod.snd

/-- A JS value passed to `reject`: either a plain string (as in
`getRankings`) or an object of the error-record shape (as in the two
lookup operations).  Fields not present on the JS object are `none`. -/
structure ErrObj where
  errorMsg : Option String
  errorField : Option String
  hasError : Bool
  isClinched : Bool
  isIneligible : Bool
  rank : Option String
  score : Option String
  team : Option String
deriving DecidableEq

/-- An untyped JS rejection value. -/
inductive JSValue where
  | str (s : String)
  | obj (e : ErrObj)
deriving DecidableEq

/-- JS string interpolation of a rejection value. -/
def jsToString : JSValue → String
  | .str s => s
  | .obj _ => "[object Object]"

/-- The observable outcome of a promise: resolved or rejected. -/
inductive Outcome (ε α : Type) where
  | resolved (a : α)
  | rejected (e : ε)
deriving DecidableEq

/-- Result of the external `cacheFetch` collaborator, abstracted per the
spec: either a payload whose `parse.text` field holds the HTML fragment
(already presented through the HTML-query capability), or a transport
failure carrying a message. -/
inductive FetchResult where
  | ok (page : Html)
  | err (msg : String)
deriving DecidableEq

/-- `getRankings()`: fetch, then parse; on fetch failure reject with the
plain string built by the template literal. -/
def getRankings (fr : FetchResult) : Outcome JSValue RankMap :=
  match fr with
  | .ok page => .resolved (_parseRanks page)
  | .err e => .rejected (.str ("Error fetching team list: " ++ e))

/-- The object rejected by `getRankByStanding` when no key matches:
field `errorMsg` carries the message. -/
def noTeamAtRankObj : ErrObj :=
  ⟨some ("No team at the given rank"), none, true, false, false, none, none, none⟩

/-- The object rejected by `getRankByTeam` when no key matches: field
`error` carries the message. -/
def noTeamNameObj : ErrObj :=
  ⟨none, some ("No team with that name exists"), true, false, false, none, none, none⟩

/-- The object rejected by either lookup when `getRankings` itself
rejected: field `error` wraps the underlying rejection value. -/
def fetchWrapObj (e : String) : ErrObj :=
  ⟨none, some ("Error attempting to fetch rank data\n" ++ e), true, false, false,
    none, none, none⟩

/-- The settlement attempts made by the loop of `getRankByStanding`:
one `resolve(rankmap.get(key))` per key whose `rank` field equals the
input under `===`, then one final `reject`. -/
def standingSettles (m : RankMap) (rank : String) :
    List (Outcome JSValue (Option IRank)) :=
  ((m.keys.filter (fun k => decide (k.2.rank = rank))).map
    (fun k => Outcome.resolved (m.get k)))
    ++ [Outcome.rejected (JSValue.obj noTeamAtRankObj)]

/-- JS `String.prototype.toLowerCase`, modelled characterwise over the
string's characters (structurally computable). -/
def jsToLowerCase (s : String) : String := String.mk (s.data.map Char.toLower)

/-- The settlement attempts made by the loop of `getRankByTeam`: the
comparison lower-cases both sides. -/
def teamSettles (m : RankMap) (team : String) :
    List (Outcome JSValue (Option IRank)) :=
  ((m.keys.filter (fun k => decide (jsToLowerCase k.2.team = jsToLowerCase team))).map
    (fun k => Outcome.resolved (m.get k)))
    ++ [Outcome.rejected (JSValue.obj noTeamNameObj)]

/-- `getRankByStanding(rank)`: fetch the rankings, scan the keys; the
first settlement wins.  On upstream rejection, reject with the wrapping
object. -/
def getRankByStanding (fr : FetchResult) (rank : String) :
    Outcome JSValue (Option IRank) :=
  match getRankings fr with
  | .resolved m =>
    (standingSettles m rank).headD (Outcome.rejected (JSValue.obj noTeamAtRankObj))
  | .rejected e => .rejected (.obj (fetchWrapObj (jsToString e)))

/-- `getRankByTeam(team)`: same shape, case-insensitive comparison. -/
def getRankByTeam (fr : FetchResult) (team : String) :
    Outcome JSValue (Option IRank) :=
  match getRankings fr with
  | .resolved m =>
    (teamSettles m team).headD (Outcome.rejected (JSValue.obj noTeamNameObj))
  | .rejected e => .rejected (.obj (fetchWrapObj (jsToString e)))

/-- Is this rejection value shaped like the spec's ErrorRecord: an error
flag set, a human-readable message present, and null/false-filled record
fields? -/
def isErrorRecordShaped : JSValue → Bool
  | .str _ => false
  | .obj o =>
    o.hasError && !o.isClinched && !o.isIneligible
      && o.rank.isNone && o.score.isNone && o.team.isNone
      && (o.errorMsg.isSome || o.errorField.isSome)

/-- Is this rejection value a plain string? -/
def isPlainString : JSValue → Bool
  | .str _ => true
  | .obj _ => false

/-! Helper lemmas. -/

lemma parseLoop_eq_filterMap (rows : List Row) :
    parseLoop rows
    = (rows.filter (fun r => !(r.hasClass ("expand-child")))).map
        (fun r => (rowKey r, rowRank r)) := by
  induction rows with
  | nil => rfl
  | cons r rs ih =>
    by_cases hr : r.hasClass ("expand-child")
    · simp [parseLoop, hr, List.filter_cons, ih]
    · simp [parseLoop, hr, List.filter_cons, ih]

lemma tagFrom_map_snd (l : List (IRankKey × IRank)) :
    ∀ n : Nat, (tagFrom n l).map Prod.snd = l.map Prod.snd := by
  induction l with
  | nil => intro n; rfl
  | cons e es ih => intro n; simp [tagFrom, ih]

lemma rankValues_mapOfEntries (l : List (IRankKey × IRank)) :
    rankValues (mapOfEntries l) = l.map Prod.snd := by
  simp [rankValues, mapOfEntries, tagFrom_map_snd]

lemma rankValues_parse (h : Html) :
    rankValues (_parseRanks h)
    = (((rankTableRows h).drop RANK_TABLE_OFFSET).filter
        (fun r => !(r.hasClass ("expand-child")))).map rowRank := by
  simp [_parseRanks, rankValues_mapOfEntries, parseLoop_eq_filterMap, List.map_map]

lemma tagFrom_keys_ge (l : List (IRankKey × IRank)) :
    ∀ (n : Nat) (k : MapKey), k ∈ (tagFrom n l).map Prod.fst → n ≤ k.1 := by
  induction l with
  | nil => intro n k hk; simp [tagFrom] at hk
  | cons e es ih =>
    intro n k hk
    simp only [tagFrom, List.map_cons, List.mem_cons] at hk
    cases hk with
    | inl h => rw [h]
    | inr h =>
      have := ih (n + 1) k h
      omega

lemma scan_tagFrom {β : Type} (q : IRankKey → Bool) (res : Option IRank → β) (d : β)
    (l : List (IRankKey × IRank)) :
    ∀ n : Nat,
      (((((tagFrom n l).map Prod.fst).filter (fun k => q k.2)).map
        (fun k => res (((tagFrom n l).find? (fun e => decide (e.1 = k))).map Prod.snd)))
        ++ [d]).headD d
      = match l.find? (fun e => q e.1) with
        | some e => res (some e.2)
        | none => d := by
  induction l with
  | nil => intro n; simp [tagFrom]
  | cons e es ih =>
    intro n
    rw [show tagFrom n (e :: es) = ((n, e.1), e.2) :: tagFrom (n + 1) es from rfl]
    by_cases hq : q e.1
    · simp [hq, List.find?_cons]
    · rw [show (((n, e.1), e.2) :: tagFrom (n + 1) es).map Prod.fst
          = ((n, e.1) : MapKey) :: (tagFrom (n + 1) es).map Prod.fst from rfl]
      rw [@List.filter_cons_of_neg _ (fun k : MapKey => q k.2) ((n, e.1) : MapKey)
          ((tagFrom (n + 1) es).map Prod.fst) hq]
      rw [@List.find?_cons_of_neg _ (fun x : IRankKey × IRank => q x.1) e es hq]
      have hcong :
          ∀ k ∈ ((tagFrom (n + 1) es).map Prod.fst).filter (fun k => q k.2),
            res (((((n, e.1), e.2) :: tagFrom (n + 1) es).find?
              (fun x => decide (x.1 = k))).map Prod.snd)
            = res (((tagFrom (n + 1) es).find?
              (fun x => decide (x.1 = k))).map Prod.snd) := by
        intro k hk
        have hk2 := List.mem_of_mem_filter hk
        have hge := tagFrom_keys_ge es (n + 1) k hk2
        have hne : ¬(decide ((((n, e.1) : MapKey)) = k) = true) := by
          simp only [decide_eq_true_eq]
          intro hcontra
          rw [← hcontra] at hge
          omega
        rw [@List.find?_cons_of_neg _ (fun x : MapKey × IRank => decide (x.1 = k))
          (((n, e.1), e.2)) (tagFrom (n + 1) es) hne]
      rw [List.map_congr_left hcong]
      exact ih (n + 1)

lemma settle_scan (l : List (IRankKey × IRank)) (q : IRankKey → Bool)
    (d : Outcome JSValue (Option IRank)) :
    ((((mapOfEntries l).keys.filter (fun k : MapKey => q k.2)).map
      (fun k : MapKey => Outcome.resolved ((mapOfEntries l).get k))) ++ [d]).headD d
    = match l.find? (fun e : IRankKey × IRank => q e.1) with
      | some e => Outcome.resolved (some e.2)
      | none => d := by
  simpa [mapOfEntries, RankMap.keys, RankMap.get] using
    scan_tagFrom q (Outcome.resolved : Option IRank → Outcome JSValue (Option IRank)) d l 0

lemma find_key_to_value (l : List (IRankKey × IRank)) (pk : IRankKey → Bool)
    (pv : IRank → Bool) (hc : ∀ e ∈ l, pk e.1 = pv e.2) :
    Option.map Prod.snd (l.find? (fun e => pk e.1)) = (l.map Prod.snd).find? pv := by
  induction l with
  | nil => rfl
  | cons e es ih =>
    have he : pk e.1 = pv e.2 := hc e (List.mem_cons_self e es)
    by_cases h : pk e.1
    · simp only [List.find?_cons, h, List.map_cons, ← he]
      simp [h]
    · have h2 : pv e.2 = false := by rw [← he]; simpa using h
      simp only [List.find?_cons, List.map_cons, h2]
      have h3 : pk e.1 = false := by simpa using h
      simp only [h3]
      exact ih (fun x hx => hc x (List.mem_cons_of_mem e hx))

lemma parseLoop_fields (rows : List Row) :
    ∀ e ∈ parseLoop rows, e.1.rank = e.2.rank ∧ e.1.team = e.2.team := by
  intro e he
  rw [parseLoop_eq_filterMap] at he
  rcases List.mem_map.mp he with ⟨r, _, hr⟩
  rw [← hr]
  exact ⟨rfl, rfl⟩

lemma standing_spec (h : Html) (rank : String) :
    getRankByStanding (FetchResult.ok h) rank
    = match (rankValues (_parseRanks h)).find? (fun v => decide (v.rank = rank)) with
      | some rec => Outcome.resolved (some rec)
      | none => Outcome.rejected (JSValue.obj noTeamAtRankObj) := by
  have hkv := find_key_to_value (parseLoop ((rankTableRows h).drop RANK_TABLE_OFFSET))
      (fun κ => decide (κ.rank = rank)) (fun v => decide (v.rank = rank))
      (by
        intro e he
        have := (parseLoop_fields _ e he).1
        simp [this])
  simp only [getRankByStanding, getRankings, standingSettles, _parseRanks]
  rw [settle_scan (parseLoop ((rankTableRows h).drop RANK_TABLE_OFFSET))
    (fun κ => decide (κ.rank = rank)) (Outcome.rejected (JSValue.obj noTeamAtRankObj))]
  rw [show rankValues (mapOfEntries (parseLoop ((rankTableRows h).drop RANK_TABLE_OFFSET)))
      = (parseLoop ((rankTableRows h).drop RANK_TABLE_OFFSET)).map Prod.snd
    from rankValues_mapOfEntries _]
  rw [← hkv]
  cases (parseLoop ((rankTableRows h).drop RANK_TABLE_OFFSET)).find?
      (fun e => decide (e.1.rank = rank)) with
  | none => rfl
  | some e => rfl

lemma team_spec (h : Html) (team : String) :
    getRankByTeam (FetchResult.ok h) team
    = match (rankValues (_parseRanks h)).find?
        (fun v => decide (jsToLowerCase v.team = jsToLowerCase team)) with
      | some rec => Outcome.resolved (some rec)
      | none => Outcome.rejected (JSValue.obj noTeamNameObj) := by
  have hkv := find_key_to_value (parseLoop ((rankTableRows h).drop RANK_TABLE_OFFSET))
      (fun κ => decide (jsToLowerCase κ.team = jsToLowerCase team))
      (fun v => decide (jsToLowerCase v.team = jsToLowerCase team))
      (by
        intro e he
        have := (parseLoop_fields _ e he).2
        simp [this])
  simp only [getRankByTeam, getRankings, teamSettles, _parseRanks]
  rw [settle_scan (parseLoop ((rankTableRows h).drop RANK_TABLE_OFFSET))
    (fun κ => decide (jsToLowerCase κ.team = jsToLowerCase team))
    (Outcome.rejected (JSValue.obj noTeamNameObj))]
  rw [show rankValues (mapOfEntries (parseLoop ((rankTableRows h).drop RANK_TABLE_OFFSET)))
      = (parseLoop ((rankTableRows h).drop RANK_TABLE_OFFSET)).map Prod.snd
    from rankValues_mapOfEntries _]
  rw [← hkv]
  cases (parseLoop ((rankTableRows h).drop RANK_TABLE_OFFSET)).find?
      (fun e => decide (jsToLowerCase e.1.team = jsToLowerCase team)) with
  | none => rfl
  | some e => rfl

lemma rowRank_rank (r : Row) : (rowRank r).rank = tdBoldText r 0 := rfl

lemma rowRank_team (r : Row) : (rowRank r).team = tdTeamLinkText r 1 := rfl

lemma rowRank_score (r : Row) : (rowRank r).score = tdBoldText r 2 := rfl

lemma rowRank_isClinched (r : Row) :
    (rowRank r).isClinched = decide (r.style = some CLINCHED_COLOR_INDICATOR) := rfl

lemma rowRank_isIneligible (r : Row) :
    (rowRank r).isIneligible = decide (r.style = some INELIGIBLE_COLOR_INDICATOR) := rfl

/-! Concrete fixtures for witnesses. -/

/-- A header-shaped row with no cells. -/
def headerRow : Row := ⟨[], none, []⟩

/-- A data row: rank in cell 0's first bold, team in cell 1's team link,
score in cell 2's first bold. -/
def mkDataRow (st : Option String) (cls : List String) (rk tm sc : String) : Row :=
  ⟨cls, st, [⟨[rk], []⟩, ⟨[], [tm]⟩, ⟨[sc], []⟩]⟩

/-- A fragment with one wikitable: two header rows, then the given rows. -/
def mkHtml (rows : List Row) : Html := ⟨[⟨headerRow :: headerRow :: rows⟩]⟩

/-! The claims. -/

/-- C1: for every HTML fragment, `_parseRanks` produces exactly one
record per data row remaining after unconditionally skipping the first
two rows and excluding expand-child rows, in source row order, with no
deduplication (the map gains one entry per processed row). -/
theorem C1_extract_exact_rows (h : Html) :
    rankValues (_parseRanks h)
      = (((rankTableRows h).drop RANK_TABLE_OFFSET).filter
          (fun r => !(r.hasClass ("expand-child")))).map rowRank
    ∧ (rankValues (_parseRanks h)).length
      = (((rankTableRows h).drop RANK_TABLE_OFFSET).filter
          (fun r => !(r.hasClass ("expand-child")))).length
    ∧ ((_parseRanks h).entries).length = (rankValues (_parseRanks h)).length := by
  refine ⟨rankValues_parse h, ?_, ?_⟩
  · rw [rankValues_parse h, List.length_map]
  · simp [rankValues]

/-- C2: highlight flags are decided by exact string equality of the
row's style attribute against the two constant color signatures; the
ineligible signature yields isIneligible and not isClinched, the
clinched signature the inverse, any other style yields both false, and
no extracted record ever has both flags true. -/
theorem C2_style_flags :
    (∀ r : Row, r.style = some INELIGIBLE_COLOR_INDICATOR →
      (rowRank r).isIneligible = true ∧ (rowRank r).isClinched = false)
    ∧ (∀ r : Row, r.style = some CLINCHED_COLOR_INDICATOR →
      (rowRank r).isClinched = true ∧ (rowRank r).isIneligible = false)
    ∧ (∀ r : Row, r.style ≠ some INELIGIBLE_COLOR_INDICATOR →
        r.style ≠ some CLINCHED_COLOR_INDICATOR →
      (rowRank r).isClinched = false ∧ (rowRank r).isIneligible = false)
    ∧ (∀ (h : Html), ∀ rec ∈ rankValues (_parseRanks h),
      ¬(rec.isClinched = true ∧ rec.isIneligible = true)) := by
  refine ⟨?_, ?_, ?_, ?_⟩
  · intro r hs
    rw [rowRank_isIneligible, rowRank_isClinched, hs]
    exact ⟨by decide, by decide⟩
  · intro r hs
    rw [rowRank_isIneligible, rowRank_isClinched, hs]
    exact ⟨by decide, by decide⟩
  · intro r hi hc
    rw [rowRank_isIneligible, rowRank_isClinched]
    exact ⟨decide_eq_false hc, decide_eq_false hi⟩
  · intro h rec hrec hboth
    rw [rankValues_parse] at hrec
    rcases List.mem_map.mp hrec with ⟨r, _, hval⟩
    rw [← hval] at hboth
    rcases hboth with ⟨hc, hi⟩
    rw [rowRank_isClinched] at hc
    rw [rowRank_isIneligible] at hi
    have hc2 := of_decide_eq_true hc
    have hi2 := of_decide_eq_true hi
    rw [hc2] at hi2
    have : CLINCHED_COLOR_INDICATOR = INELIGIBLE_COLOR_INDICATOR := Option.some.inj hi2
    exact absurd this (by decide)

/-- C2 witness: a concrete ineligible-styled row gets
isIneligible = true and isClinched = false. -/
theorem C2_style_flags_witness :
    (rowRank (Row.mk [] (some INELIGIBLE_COLOR_INDICATOR) [])).isIneligible = true
    ∧ (rowRank (Row.mk [] (some INELIGIBLE_COLOR_INDICATOR) [])).isClinched = false :=
  C2_style_flags.1 (Row.mk [] (some INELIGIBLE_COLOR_INDICATOR) []) rfl

/-- C3: `getRankByStanding` resolves with the first record whose rank
field equals the input under exact string equality, and rejects with the
object whose `errorMsg` states the no-team-at-rank message when no
record matches. -/
theorem C3_standing_lookup (h : Html) (rank : String) :
    (∀ rec : IRank,
      (rankValues (_parseRanks h)).find? (fun v => decide (v.rank = rank)) = some rec →
      getRankByStanding (FetchResult.ok h) rank = Outcome.resolved (some rec))
    ∧ ((rankValues (_parseRanks h)).find? (fun v => decide (v.rank = rank)) = none →
      getRankByStanding (FetchResult.ok h) rank
        = Outcome.rejected (JSValue.obj noTeamAtRankObj))
    ∧ noTeamAtRankObj.errorMsg = some ("No team at the given rank") := by
  refine ⟨?_, ?_, rfl⟩
  · intro rec hrec
    rw [standing_spec, hrec]
  · intro hnone
    rw [standing_spec, hnone]

/-- C3 witness: on a concrete two-row table the lookup at rank 2 returns
the second record, and a missing rank rejects with the fixed object. -/
theorem C3_standing_lookup_witness :
    getRankByStanding
        (FetchResult.ok (mkHtml
          [mkDataRow none [] ("1") ("Alpha") ("900"),
           mkDataRow none [] ("2") ("Beta") ("800")])) ("2")
      = Outcome.resolved (some (IRank.mk ("2") ("Beta") ("800") false false))
    ∧ getRankByStanding
        (FetchResult.ok (mkHtml
          [mkDataRow none [] ("1") ("Alpha") ("900"),
           mkDataRow none [] ("2") ("Beta") ("800")])) ("3")
      = Outcome.rejected (JSValue.obj noTeamAtRankObj) :=
  ⟨(C3_standing_lookup (mkHtml
      [mkDataRow none [] ("1") ("Alpha") ("900"),
       mkDataRow none [] ("2") ("Beta") ("800")]) ("2")).1
    (IRank.mk ("2") ("Beta") ("800") false false) (by decide),
   (C3_standing_lookup (mkHtml
      [mkDataRow none [] ("1") ("Alpha") ("900"),
       mkDataRow none [] ("2") ("Beta") ("800")]) ("3")).2.1 (by decide)⟩

/-- C4: `getRankByTeam` resolves with the first record whose team field
equals the input case-insensitively, rejects with the object whose
`error` field states the no-team message when none matches, and two
inputs equal up to lower-casing always produce the same outcome. -/
theorem C4_team_lookup (h : Html) (team : String) :
    (∀ rec : IRank,
      (rankValues (_parseRanks h)).find?
          (fun v => decide (jsToLowerCase v.team = jsToLowerCase team)) = some rec →
      getRankByTeam (FetchResult.ok h) team = Outcome.resolved (some rec))
    ∧ ((rankValues (_parseRanks h)).find?
          (fun v => decide (jsToLowerCase v.team = jsToLowerCase team)) = none →
      getRankByTeam (FetchResult.ok h) team
        = Outcome.rejected (JSValue.obj noTeamNameObj))
    ∧ (∀ s t : String, jsToLowerCase s = jsToLowerCase t →
      getRankByTeam (FetchResult.ok h) s = getRankByTeam (FetchResult.ok h) t)
    ∧ noTeamNameObj.errorField = some ("No team with that name exists") := by
  refine ⟨?_, ?_, ?_, rfl⟩
  · intro rec hrec
    rw [team_spec, hrec]
  · intro hnone
    rw [team_spec, hnone]
  · intro s t hst
    rw [team_spec, team_spec]
    simp only [hst]

/-- C4 witness: querying a record stored as Team A by the lower-cased
name team a succeeds with that record. -/
theorem C4_team_lookup_witness :
    getRankByTeam
        (FetchResult.ok (mkHtml [mkDataRow none [] ("1") ("Team A") ("100")])) ("team a")
      = Outcome.resolved (some (IRank.mk ("1") ("Team A") ("100") false false))
    ∧ getRankByTeam
        (FetchResult.ok (mkHtml [mkDataRow none [] ("1") ("Team A") ("100")])) ("Team A")
      = Outcome.resolved (some (IRank.mk ("1") ("Team A") ("100") false false)) :=
  ⟨(C4_team_lookup (mkHtml [mkDataRow none [] ("1") ("Team A") ("100")]) ("team a")).1
      (IRank.mk ("1") ("Team A") ("100") false false) (by decide),
   (C4_team_lookup (mkHtml [mkDataRow none [] ("1") ("Team A") ("100")]) ("Team A")).1
      (IRank.mk ("1") ("Team A") ("100") false false) (by decide)⟩

/-- C5 counterexample: `getRankings` is one of the three public
operations, and on a transport failure it rejects with a plain string,
not with an ErrorRecord-shaped value (no error flag, no null-filled
record fields), so the three operations do not share one uniform
rejection shape. -/
theorem C5_counterexample :
    getRankings (FetchResult.err ("boom"))
      = Outcome.rejected (JSValue.str ("Error fetching team list: boom"))
    ∧ isErrorRecordShaped (JSValue.str ("Error fetching team list: boom")) = false :=
  ⟨by decide, by decide⟩

/-- C5 (amended): every failure path of the two lookup operations
rejects with an ErrorRecord-shaped object (error flag set, a message
present, rank/team/score null, both flags false), while every failure
path of `getRankings` rejects with a plain string message instead. -/
theorem C5_reject_shapes :
    (∀ (fr : FetchResult) (rank : String) (v : JSValue),
      getRankByStanding fr rank = Outcome.rejected v → isErrorRecordShaped v = true)
    ∧ (∀ (fr : FetchResult) (team : String) (v : JSValue),
      getRankByTeam fr team = Outcome.rejected v → isErrorRecordShaped v = true)
    ∧ (∀ (fr : FetchResult) (v : JSValue),
      getRankings fr = Outcome.rejected v → isPlainString v = true) := by
  refine ⟨?_, ?_, ?_⟩
  · intro fr rank v hv
    cases fr with
    | ok h =>
      rw [standing_spec] at hv
      cases hfind : (rankValues (_parseRanks h)).find? (fun q => decide (q.rank = rank)) with
      | some rec =>
        rw [hfind] at hv
        simp at hv
      | none =>
        rw [hfind] at hv
        simp only [Outcome.rejected.injEq] at hv
        rw [← hv]
        rfl
    | err e =>
      simp only [getRankByStanding, getRankings, Outcome.rejected.injEq] at hv
      rw [← hv]
      rfl
  · intro fr team v hv
    cases fr with
    | ok h =>
      rw [team_spec] at hv
      cases hfind : (rankValues (_parseRanks h)).find?
          (fun q => decide (jsToLowerCase q.team = jsToLowerCase team)) with
      | some rec =>
        rw [hfind] at hv
        simp at hv
      | none =>
        rw [hfind] at hv
        simp only [Outcome.rejected.injEq] at hv
        rw [← hv]
        rfl
    | err e =>
      simp only [getRankByTeam, getRankings, Outcome.rejected.injEq] at hv
      rw [← hv]
      rfl
  · intro fr v hv
    cases fr with
    | ok h => simp [getRankings] at hv
    | err e =>
      simp only [getRankings, Outcome.rejected.injEq] at hv
      rw [← hv]
      rfl

/-- C5 witness: the no-match rejection of the standing lookup is
ErrorRecord-shaped. -/
theorem C5_reject_shapes_witness :
    isErrorRecordShaped (JSValue.obj noTeamAtRankObj) = true :=
  C5_reject_shapes.1 (FetchResult.ok (mkHtml [])) ("1")
    (JSValue.obj noTeamAtRankObj) (by decide)

/-- C6: no row carrying the expand-child marker class ever contributes a
record: every extracted record comes from a non-expand-child row, and
inserting an expand-child row anywhere among the data rows leaves the
parse result unchanged, whatever that row's cells hold. -/
theorem C6_expand_child_excluded :
    (∀ (h : Html), ∀ rec ∈ rankValues (_parseRanks h),
      ∃ r : Row, r ∈ (rankTableRows h).drop RANK_TABLE_OFFSET
        ∧ r.hasClass ("expand-child") = false ∧ rec = rowRank r)
    ∧ (∀ (pre post : List Row) (r : Row), r.hasClass ("expand-child") = true →
      parseLoop (pre ++ r :: post) = parseLoop (pre ++ post)) := by
  constructor
  · intro h rec hrec
    rw [rankValues_parse] at hrec
    rcases List.mem_map.mp hrec with ⟨r, hr, hval⟩
    rcases List.mem_filter.mp hr with ⟨hmem, hcls⟩
    refine ⟨r, hmem, ?_, hval.symm⟩
    simpa using hcls
  · intro pre post r hr
    induction pre with
    | nil => simp [parseLoop, hr]
    | cons a as ih =>
      by_cases hca : a.hasClass ("expand-child")
      · simp [parseLoop, hca, ih]
      · simp [parseLoop, hca, ih]

/-- C6 witness: a concrete expand-child row with populated cells
contributes nothing. -/
theorem C6_expand_child_excluded_witness :
    parseLoop ([] ++ mkDataRow none [("expand-child")] ("99") ("Ghost") ("123") :: [])
      = parseLoop ([] ++ []) :=
  C6_expand_child_excluded.2 [] []
    (mkDataRow none [("expand-child")] ("99") ("Ghost") ("123")) (by decide)

/-- C7: a missing descendant at any of the three fixed lookups yields
the empty string for that field, and a non-excluded row always yields a
record (rows are never dropped for empty text lookups). -/
theorem C7_missing_descendants :
    (∀ r : Row,
      (tdBolds r 0 = [] → (rowRank r).rank = "")
      ∧ (tdTeamLinks r 1 = [] → (rowRank r).team = "")
      ∧ (tdBolds r 2 = [] → (rowRank r).score = ""))
    ∧ (∀ (rows : List Row) (r : Row), r ∈ rows →
      r.hasClass ("expand-child") = false →
      rowRank r ∈ (parseLoop rows).map Prod.snd) := by
  constructor
  · intro r
    refine ⟨?_, ?_, ?_⟩
    · intro hb
      rw [rowRank_rank]
      simp [tdBoldText, hb]
    · intro hb
      rw [rowRank_team]
      simp [tdTeamLinkText, hb]
    · intro hb
      rw [rowRank_score]
      simp [tdBoldText, hb]
  · intro rows r
    induction rows with
    | nil => intro hm _; cases hm
    | cons a as ih =>
      intro hm hnc
      rcases List.mem_cons.mp hm with heq | hm2
      · rw [← heq]
        simp [parseLoop, hnc]
      · by_cases hca : a.hasClass ("expand-child")
        · simpa [parseLoop, hca] using ih hm2 hnc
        · simp only [parseLoop, hca, Bool.not_false, if_pos, List.map_cons]
          exact List.mem_cons_of_mem _ (ih hm2 hnc)

/-- C7 witness: a cell-less, class-less row still yields a record, with
all three text fields empty. -/
theorem C7_missing_descendants_witness :
    ((rowRank (Row.mk [] none [])).rank = ""
      ∧ (rowRank (Row.mk [] none [])).team = ""
      ∧ (rowRank (Row.mk [] none [])).score = "")
    ∧ rowRank (Row.mk [] none [])
        ∈ (parseLoop [Row.mk [] none []]).map Prod.snd :=
  ⟨⟨(C7_missing_descendants.1 (Row.mk [] none [])).1 (by decide),
    (C7_missing_descendants.1 (Row.mk [] none [])).2.1 (by decide),
    (C7_missing_descendants.1 (Row.mk [] none [])).2.2 (by decide)⟩,
   C7_missing_descendants.2 [Row.mk [] none []] (Row.mk [] none [])
     (List.mem_singleton.mpr rfl) (by decide)⟩

/-- C8: a transport failure makes `getRankings` reject with the prefixed
message, which contains the original error text verbatim; in this
embedding the failure is a total function into a rejection outcome,
never an exception. -/
theorem C8_transport_failure (e : String) :
    getRankings (FetchResult.err e)
      = Outcome.rejected (JSValue.str ("Error fetching team list: " ++ e))
    ∧ ∃ p s : String, ("Error fetching team list: " ++ e) = p ++ e ++ s := by
  refine ⟨rfl, "Error fetching team list: ", "", ?_⟩
  rw [String.append_empty]

/-- C9: `_parseRanks` is a pure function of the HTML fragment: equal
inputs produce equal maps and hence equal record collections in equal
order. -/
theorem C9_parse_deterministic (h1 h2 : Html) (hh : h1 = h2) :
    _parseRanks h1 = _parseRanks h2
    ∧ rankValues (_parseRanks h1) = rankValues (_parseRanks h2) := by
  rw [hh]
  exact ⟨rfl, rfl⟩

/-- C9 witness: two runs on one concrete fragment agree. -/
theorem C9_parse_deterministic_witness :
    _parseRanks (mkHtml [mkDataRow none [] ("1") ("Alpha") ("900")])
      = _parseRanks (mkHtml [mkDataRow none [] ("1") ("Alpha") ("900")])
    ∧ rankValues (_parseRanks (mkHtml [mkDataRow none [] ("1") ("Alpha") ("900")]))
      = rankValues (_parseRanks (mkHtml [mkDataRow none [] ("1") ("Alpha") ("900")])) :=
  C9_parse_deterministic (mkHtml [mkDataRow none [] ("1") ("Alpha") ("900")])
    (mkHtml [mkDataRow none [] ("1") ("Alpha") ("900")]) rfl

/-- C10: a map lookup on a key drawn from the map's own key set never
misses, so whenever a lookup scan resolves, the resolved value is a
defined record, never undefined. -/
theorem C10_lookup_never_undefined :
    (∀ (l : List (IRankKey × IRank)) (k : MapKey),
      k ∈ (mapOfEntries l).keys → ((mapOfEntries l).get k).isSome = true)
    ∧ (∀ (h : Html) (rank : String) (v : Option IRank),
      getRankByStanding (FetchResult.ok h) rank = Outcome.resolved v → v.isSome = true)
    ∧ (∀ (h : Html) (team : String) (v : Option IRank),
      getRankByTeam (FetchResult.ok h) team = Outcome.resolved v → v.isSome = true) := by
  refine ⟨?_, ?_, ?_⟩
  · intro l k hk
    rcases List.mem_map.mp hk with ⟨en, hen, hfst⟩
    have hfound : (((mapOfEntries l).entries).find? (fun e => decide (e.1 = k))).isSome := by
      rw [List.find?_isSome]
      exact ⟨en, hen, by simp [hfst]⟩
    simp only [RankMap.get, Option.isSome_map']
    exact hfound
  · intro h rank v hv
    rw [standing_spec] at hv
    cases hfind : (rankValues (_parseRanks h)).find? (fun q => decide (q.rank = rank)) with
    | some rec =>
      rw [hfind] at hv
      simp only [Outcome.resolved.injEq] at hv
      rw [← hv]
      rfl
    | none =>
      rw [hfind] at hv
      simp at hv
  · intro h team v hv
    rw [team_spec] at hv
    cases hfind : (rankValues (_parseRanks h)).find?
        (fun q => decide (jsToLowerCase q.team = jsToLowerCase team)) with
    | some rec =>
      rw [hfind] at hv
      simp only [Outcome.resolved.injEq] at hv
      rw [← hv]
      rfl
    | none =>
      rw [hfind] at hv
      simp at hv

/-- C10 witness: a successful standing lookup on a concrete table
resolves with a defined record. -/
theorem C10_lookup_never_undefined_witness :
    (some (IRank.mk ("1") ("Alpha") ("900") false false)).isSome = true :=
  C10_lookup_never_undefined.2.1 (mkHtml [mkDataRow none [] ("1") ("Alpha") ("900")])
    ("1") (some (IRank.mk ("1") ("Alpha") ("900") false false)) (by decide)
